import Mathlib

/-!
Verification of the isucon13 reservation-admission engine and bulk response
aggregators (`livestream_handler.go`, `reaction_handler.go`) against their
natural-language specification.  The Go code is shallowly embedded: the
database state is a record of row lists, SQL selects become list filters and
first-match searches, Go maps become functions `Int → Option α` updated by
overwrite, and each handler body that runs inside a transaction becomes a
function threading the transaction-local state and returning an `Except`.
-/

namespace Isu

/-- Go `map[int64]V`: total function from keys to optional values. -/
def IdMap (α : Type) : Type := Int → Option α

/-- Go map assignment `m[k] = v`: overwrite semantics. -/
def mapInsert {α : Type} (m : IdMap α) (k : Int) (v : α) : IdMap α :=
  fun x => if x = k then some v else m x

/-- The empty (or Go `nil`) map: every lookup misses. -/
def emptyMap {α : Type} : IdMap α := fun _ => none

/-- Row of the `users` table (`UserModel`).  The full user schema lives in
`user_handler.go`, which is not among the provided sources; only the fields
the livestream/reaction handlers touch (the id) plus a representative payload
field are kept. -/
structure UserModel where
  id : Int
  name : String
  deriving Repr, DecidableEq

/-- Produced user representation (`User`), the output of the user entity
fetcher. -/
structure User where
  id : Int
  name : String
  deriving Repr, DecidableEq

/-- Row of the `tags` table (`TagModel`). -/
structure TagModel where
  id : Int
  name : String
  deriving Repr, DecidableEq

/-- Produced tag representation (`Tag`). -/
structure Tag where
  id : Int
  name : String
  deriving Repr, DecidableEq

/-- Row of the `livestreams` table (`LivestreamModel`). -/
structure LivestreamModel where
  id : Int
  userId : Int
  title : String
  description : String
  playlistUrl : String
  thumbnailUrl : String
  startAt : Int
  endAt : Int
  deriving Repr, DecidableEq

/-- Produced livestream representation (`Livestream`). -/
structure Livestream where
  id : Int
  owner : User
  title : String
  description : String
  playlistUrl : String
  thumbnailUrl : String
  tags : List Tag
  startAt : Int
  endAt : Int
  deriving Repr, DecidableEq

/-- Row of the `livestream_tags` join table (`LivestreamTagModel`). -/
structure LivestreamTagModel where
  id : Int
  livestreamId : Int
  tagId : Int
  deriving Repr, DecidableEq

/-- Row of the `reservation_slots` table (`ReservationSlotModel`); `slot` is
the remaining capacity. -/
structure ReservationSlotModel where
  id : Int
  slot : Int
  startAt : Int
  endAt : Int
  deriving Repr, DecidableEq

/-- Row of the `reactions` table (`ReactionModel`). -/
structure ReactionModel where
  id : Int
  emojiName : String
  userId : Int
  livestreamId : Int
  createdAt : Int
  deriving Repr, DecidableEq

/-- Produced reaction representation (`Reaction`). -/
structure Reaction where
  id : Int
  emojiName : String
  user : User
  livestream : Livestream
  createdAt : Int
  deriving Repr, DecidableEq

/-- The relational state the two handlers read and write.  `nextLivestreamId`
models the auto-increment counter behind `LastInsertId`. -/
structure DBState where
  users : List UserModel
  tags : List TagModel
  livestreams : List LivestreamModel
  livestreamTags : List LivestreamTagModel
  slots : List ReservationSlotModel
  nextLivestreamId : Int
  deriving Repr, DecidableEq

/-- Request body of POST livestream reservation (`ReserveLivestreamRequest`). -/
structure ReserveLivestreamRequest where
  tags : List Int
  title : String
  description : String
  playlistUrl : String
  thumbnailUrl : String
  startAt : Int
  endAt : Int
  deriving Repr, DecidableEq

/-- Unix time of `time.Date(2023, 11, 25, 1, 0, 0, 0, time.UTC)` (`termStartAt`). -/
def termStartAt : Int := 1700874000

/-- Unix time of `time.Date(2024, 11, 25, 1, 0, 0, 0, time.UTC)` (`termEndAt`). -/
def termEndAt : Int := 1732496400

/-- The window test of `reserveLivestreamHandler`:
`(reserveStartAt.Equal(termEndAt) || reserveStartAt.After(termEndAt)) ||
 (reserveEndAt.Equal(termStartAt) || reserveEndAt.Before(termStartAt))`,
parametrised by the horizon bounds (the handler instantiates them with
`termStartAt`/`termEndAt`). -/
def badWindowCheck (hStart hEnd reqStart reqEnd : Int) : Bool :=
  (hEnd ≤ reqStart) || (reqEnd ≤ hStart)

/-- The error outcomes `reserveLivestreamHandler` can produce inside the
transaction, one constructor per `echo.NewHTTPError` site. -/
inductive ReserveErr where
  /-- 400 bad reservation time range. -/
  | badWindow
  /-- 400 the requested interval cannot be reserved. -/
  | slotExhausted
  /-- 500 failed to get reservation_slots (re-read found no row). -/
  | getSlotFailed
  /-- 500 failed to insert livestream tag. -/
  | insertTagFailed
  /-- 500 failed to fill livestream. -/
  | fillFailed
  deriving Repr, DecidableEq

/-- The HTTP status the handler attaches to each error outcome. -/
def ReserveErr.status : ReserveErr → Nat
  | .badWindow => 400
  | .slotExhausted => 400
  | .getSlotFailed => 500
  | .insertTagFailed => 500
  | .fillFailed => 500

/-- Predicate of the slot queries
`start_at >= req.StartAt AND end_at <= req.EndAt`. -/
def inWindow (reqStart reqEnd : Int) (s : ReservationSlotModel) : Bool :=
  (reqStart ≤ s.startAt) && (s.endAt ≤ reqEnd)

/-- The per-slot re-read
`SELECT slot FROM reservation_slots WHERE start_at = ? AND end_at = ?`:
`GetContext` scans the first matching row. -/
def getSlotCount (slots : List ReservationSlotModel) (s : ReservationSlotModel) :
    Option Int :=
  (slots.find? (fun t => t.startAt == s.startAt && t.endAt == s.endAt)).map
    (fun t => t.slot)

/-- The capacity-check loop of `reserveLivestreamHandler`: for each selected
slot, re-read its capacity and fail when it is below 1 (or when the re-read
finds no row). -/
def checkSlots (slots : List ReservationSlotModel) :
    List ReservationSlotModel → Except ReserveErr Unit
  | [] => .ok ()
  | s :: rest =>
    match getSlotCount slots s with
    | none => .error .getSlotFailed
    | some count =>
      if count < 1 then .error .slotExhausted else checkSlots slots rest

/-- The decrement
`UPDATE reservation_slots SET slot = slot - 1 WHERE start_at >= ? AND end_at <= ?`. -/
def decrementSlots (reqStart reqEnd : Int)
    (slots : List ReservationSlotModel) : List ReservationSlotModel :=
  slots.map (fun s =>
    if inWindow reqStart reqEnd s then { s with slot := s.slot - 1 } else s)

/-- The tag-insert loop of `reserveLivestreamHandler`, threading the join
table through the transaction.  That an insert with an invalid tag id fails
is Modelled from the spec: the database schema is not among the provided
sources, and the spec states that missing/invalid tag ids make the join-row
insert fail and abort the transaction.  The handler maps any such failure to
a 500 `insertTagFailed` outcome.  Join-row auto-increment ids are irrelevant
to the handlers and are inserted as 0. -/
def insertTags (tagRows : List TagModel) (livestreamId : Int)
    (lts : List LivestreamTagModel) : List Int →
    Except ReserveErr (List LivestreamTagModel)
  | [] => .ok lts
  | tagId :: rest =>
    if tagRows.any (fun t => t.id == tagId) then
      insertTags tagRows livestreamId (lts ++ [⟨0, livestreamId, tagId⟩]) rest
    else .error .insertTagFailed

/-- The `Livestream` struct literal shared by `fillLivestreamResponse` and
`fillLivestreamResponseBulk` (both build the same composite from a row, an
owner and a tag list). -/
def mkLivestream (lm : LivestreamModel) (owner : User) (tags : List Tag) :
    Livestream :=
  { id := lm.id, owner := owner, title := lm.title,
    description := lm.description, playlistUrl := lm.playlistUrl,
    thumbnailUrl := lm.thumbnailUrl, tags := tags,
    startAt := lm.startAt, endAt := lm.endAt }

/-- Modelled from the spec: `fillUserResponse` lives in `user_handler.go`,
which is not among the provided sources.  Per the spec, entity fetchers "map
stored rows to domain entities"; the user fetcher maps a user row to its
produced representation. -/
def fillUserResponse (u : UserModel) : User := ⟨u.id, u.name⟩

/-- Modelled from the spec: `fillUserResponseBulk` lives in
`user_handler.go`, which is not among the provided sources.  Per the spec,
the bulk aggregator builds "an in-memory mapping from id to resolved entity"
for the fetched user rows, issuing no per-row queries; Go map assignment
gives later rows precedence. -/
def fillUserResponseBulk (rows : List UserModel) : IdMap User :=
  rows.foldl (fun m u => mapInsert m u.id (fillUserResponse u)) emptyMap

/-- The per-tag read `SELECT * FROM tags WHERE id = ?` (first matching row). -/
def getTagById (tagRows : List TagModel) (tagId : Int) : Option TagModel :=
  tagRows.find? (fun t => t.id == tagId)

/-- The tag loop of `fillLivestreamResponse`: one `tags` lookup per join row,
failing on the first missing tag (`sql.ErrNoRows`). -/
def fillTags (tagRows : List TagModel) :
    List LivestreamTagModel → Except String (List Tag)
  | [] => .ok []
  | lt :: rest =>
    match getTagById tagRows lt.tagId with
    | none => .error "failed to get tag"
    | some tm => (fillTags tagRows rest).map (fun ts => Tag.mk tm.id tm.name :: ts)

/-- `fillLivestreamResponse`: fetch the owner row, fill the owner, fetch the
join rows for the livestream, fetch each referenced tag, and assemble the
composite representation. -/
def fillLivestreamResponse (db : DBState) (lm : LivestreamModel) :
    Except String Livestream :=
  match db.users.find? (fun u => u.id == lm.userId) with
  | none => .error "failed to get owner"
  | some ownerModel =>
    match fillTags db.tags
        (db.livestreamTags.filter (fun t => t.livestreamId == lm.id)) with
    | .error e => .error e
    | .ok tags => .ok (mkLivestream lm (fillUserResponse ownerModel) tags)

/-- One storage query issued by a bulk aggregator: the table it filters and
the key list handed to the `IN (...)` clause. -/
inductive Query where
  | usersIn (keys : List Int)
  | livestreamsIn (keys : List Int)
  | livestreamTagsIn (keys : List Int)
  | tagsIn (keys : List Int)
  deriving Repr, DecidableEq

/-- The grouping loop of `fillLivestreamResponseBulk`:
`livestreamTagMap[lt.LivestreamID] = append(livestreamTagMap[lt.LivestreamID], lt)`. -/
def groupTagsByLivestream (rows : List LivestreamTagModel) :
    IdMap (List LivestreamTagModel) :=
  rows.foldl
    (fun m r =>
      mapInsert m r.livestreamId ((m r.livestreamId).getD [] ++ [r])) emptyMap

/-- The tag-map loop of `fillLivestreamResponseBulk`:
`tagMap[tagModel.ID] = Tag{...}`. -/
def buildTagMap (rows : List TagModel) : IdMap Tag :=
  rows.foldl (fun m t => mapInsert m t.id (Tag.mk t.id t.name)) emptyMap

/-- The inner tag-resolution loop of `fillLivestreamResponseBulk`: look every
join row of one livestream up in the tag map, failing on a missing tag. -/
def lookupTags (tagMap : IdMap Tag) :
    List LivestreamTagModel → Except String (List Tag)
  | [] => .ok []
  | lt :: rest =>
    match tagMap lt.tagId with
    | none => .error "tag not found"
    | some t => (lookupTags tagMap rest).map (fun ts => t :: ts)

/-- The assembly loop of `fillLivestreamResponseBulk` (step 5): for each
input row, resolve the owner (missing owner is an error), default the join
rows to the empty list, resolve the tags, and store the composite under the
row id. -/
def assembleLivestreams (ownerMap : IdMap User)
    (ltMap : IdMap (List LivestreamTagModel)) (tagMap : IdMap Tag)
    (acc : IdMap Livestream) :
    List LivestreamModel → Except String (IdMap Livestream)
  | [] => .ok acc
  | lm :: rest =>
    match ownerMap lm.userId with
    | none => .error "owner not found"
    | some owner =>
      match lookupTags tagMap ((ltMap lm.id).getD []) with
      | .error e => .error e
      | .ok tags =>
        assembleLivestreams ownerMap ltMap tagMap
          (mapInsert acc lm.id (mkLivestream lm owner tags)) rest

/-- The owner-id key list of `fillLivestreamResponseBulk` (step 1), one
entry per input row. -/
def bulkUserIDs (rows : List LivestreamModel) : List Int :=
  rows.map (fun r => r.userId)

/-- The livestream-id key list of `fillLivestreamResponseBulk` (step 1),
one entry per input row. -/
def bulkLivestreamIDs (rows : List LivestreamModel) : List Int :=
  rows.map (fun r => r.id)

/-- The rows returned by `SELECT * FROM users WHERE id IN (userIDs)`. -/
def bulkOwnerModels (db : DBState) (rows : List LivestreamModel) :
    List UserModel :=
  db.users.filter (fun u => (bulkUserIDs rows).contains u.id)

/-- The owner map of `fillLivestreamResponseBulk` (step 2). -/
def bulkOwnerMap (db : DBState) (rows : List LivestreamModel) : IdMap User :=
  fillUserResponseBulk (bulkOwnerModels db rows)

/-- The rows returned by
`SELECT * FROM livestream_tags WHERE livestream_id IN (livestreamIDs)`. -/
def bulkLtModels (db : DBState) (rows : List LivestreamModel) :
    List LivestreamTagModel :=
  db.livestreamTags.filter
    (fun t => (bulkLivestreamIDs rows).contains t.livestreamId)

/-- The per-livestream grouping of the fetched join rows (step 3). -/
def bulkLtMap (db : DBState) (rows : List LivestreamModel) :
    IdMap (List LivestreamTagModel) :=
  groupTagsByLivestream (bulkLtModels db rows)

/-- The tag-id key list of `fillLivestreamResponseBulk` (step 4), one entry
per fetched join row. -/
def bulkTagIDs (db : DBState) (rows : List LivestreamModel) : List Int :=
  (bulkLtModels db rows).map (fun t => t.tagId)

/-- The rows returned by `SELECT * FROM tags WHERE id IN (tagIDs)`. -/
def bulkTagModels (db : DBState) (rows : List LivestreamModel) :
    List TagModel :=
  db.tags.filter (fun t => (bulkTagIDs db rows).contains t.id)

/-- The tag map of `fillLivestreamResponseBulk` (step 4). -/
def bulkTagMap (db : DBState) (rows : List LivestreamModel) : IdMap Tag :=
  buildTagMap (bulkTagModels db rows)

/-- `fillLivestreamResponseBulk`, instrumented with the list of storage
queries it issues.  An empty input returns the Go `nil, nil` (an
always-missing map, no queries).  `sqlx.In` rejects an empty key slice, so
an empty collected tag-id list makes the tags query construction fail before
the query is issued. -/
def fillLivestreamResponseBulk (db : DBState) (rows : List LivestreamModel) :
    List Query × Except String (IdMap Livestream) :=
  if rows.isEmpty then ([], .ok emptyMap)
  else if (bulkTagIDs db rows).isEmpty then
    ([Query.usersIn (bulkUserIDs rows),
      Query.livestreamTagsIn (bulkLivestreamIDs rows)],
     .error "failed to build tag query: empty slice passed to in query")
  else
    ([Query.usersIn (bulkUserIDs rows),
      Query.livestreamTagsIn (bulkLivestreamIDs rows),
      Query.tagsIn (bulkTagIDs db rows)],
     assembleLivestreams (bulkOwnerMap db rows) (bulkLtMap db rows)
       (bulkTagMap db rows) emptyMap rows)

/-- The assembly loop of `fillReactionResponseBulk` (step 4): resolve user
and livestream for each input row, in input order, failing on a missing
reference. -/
def assembleReactions (userMap : IdMap User) (lsMap : IdMap Livestream) :
    List ReactionModel → Except String (List Reaction)
  | [] => .ok []
  | r :: rest =>
    match userMap r.userId with
    | none => .error "user not found"
    | some u =>
      match lsMap r.livestreamId with
      | none => .error "livestream not found"
      | some ls =>
        (assembleReactions userMap lsMap rest).map
          (fun out => Reaction.mk r.id r.emojiName u ls r.createdAt :: out)

/-- The user-id key list of `fillReactionResponseBulk` (step 1), one entry
per input row. -/
def reacUserIDs (rows : List ReactionModel) : List Int :=
  rows.map (fun r => r.userId)

/-- The livestream-id key list of `fillReactionResponseBulk` (step 1), one
entry per input row. -/
def reacLivestreamIDs (rows : List ReactionModel) : List Int :=
  rows.map (fun r => r.livestreamId)

/-- The user map of `fillReactionResponseBulk` (step 2). -/
def reacUserMap (db : DBState) (rows : List ReactionModel) : IdMap User :=
  fillUserResponseBulk
    (db.users.filter (fun u => (reacUserIDs rows).contains u.id))

/-- The rows returned by
`SELECT * FROM livestreams WHERE id IN (livestreamIDs)` (step 3). -/
def reacLsModels (db : DBState) (rows : List ReactionModel) :
    List LivestreamModel :=
  db.livestreams.filter (fun l => (reacLivestreamIDs rows).contains l.id)

/-- `fillReactionResponseBulk`, instrumented with the list of storage
queries it issues (its own two `IN` queries followed by the queries of the
livestream sub-aggregation). -/
def fillReactionResponseBulk (db : DBState) (rows : List ReactionModel) :
    List Query × Except String (List Reaction) :=
  if rows.isEmpty then ([], .ok [])
  else
    match fillLivestreamResponseBulk db (reacLsModels db rows) with
    | (subLog, .error e) =>
      (Query.usersIn (reacUserIDs rows) ::
        Query.livestreamsIn (reacLivestreamIDs rows) :: subLog, .error e)
    | (subLog, .ok lsMap) =>
      (Query.usersIn (reacUserIDs rows) ::
        Query.livestreamsIn (reacLivestreamIDs rows) :: subLog,
       assembleReactions (reacUserMap db rows) lsMap rows)

/-- The `livestreams` row inserted by `reserveLivestreamHandler`, its id the
auto-increment value returned by `LastInsertId`. -/
def reserveLm (db : DBState) (userID : Int) (req : ReserveLivestreamRequest) :
    LivestreamModel :=
  { id := db.nextLivestreamId, userId := userID, title := req.title,
    description := req.description, playlistUrl := req.playlistUrl,
    thumbnailUrl := req.thumbnailUrl,
    startAt := req.startAt, endAt := req.endAt }

/-- The transaction-local state after the slot decrement and the livestream
insert of `reserveLivestreamHandler`. -/
def reserveMid (db : DBState) (userID : Int) (req : ReserveLivestreamRequest) :
    DBState :=
  { db with slots := decrementSlots req.startAt req.endAt db.slots,
            livestreams := db.livestreams ++ [reserveLm db userID req],
            nextLivestreamId := db.nextLivestreamId + 1 }

/-- The transaction body of `reserveLivestreamHandler`: window check, locking
slot select, per-slot capacity re-check, slot decrement, livestream insert,
tag inserts, response fill.  Returns the transaction-local state together
with the outcome; `reserve` below applies commit/rollback. -/
def reserveTx (db : DBState) (userID : Int) (req : ReserveLivestreamRequest) :
    DBState × Except ReserveErr Livestream :=
  if badWindowCheck termStartAt termEndAt req.startAt req.endAt then
    (db, .error .badWindow)
  else
    match checkSlots db.slots (db.slots.filter (inWindow req.startAt req.endAt)) with
    | .error e => (db, .error e)
    | .ok _ =>
      match insertTags db.tags db.nextLivestreamId db.livestreamTags req.tags with
      | .error e => (reserveMid db userID req, .error e)
      | .ok lts =>
        match fillLivestreamResponse
            { reserveMid db userID req with livestreamTags := lts }
            (reserveLm db userID req) with
        | .error _ =>
          ({ reserveMid db userID req with livestreamTags := lts },
           .error .fillFailed)
        | .ok ls =>
          ({ reserveMid db userID req with livestreamTags := lts }, .ok ls)

/-- `reserveLivestreamHandler` as observed through the database: the
transaction commits on success and is rolled back (`defer tx.Rollback()`) on
any error, so an error leaves the observable state unchanged. -/
def reserve (db : DBState) (userID : Int) (req : ReserveLivestreamRequest) :
    DBState × Except ReserveErr Livestream :=
  match reserveTx db userID req with
  | (s, .ok ls) => (s, .ok ls)
  | (_, .error e) => (db, .error e)

/-- Modelled from the spec: the `reservation_slots` schema and seed data are
not among the provided sources; per the spec a TimeSlot "identifies a
fixed-width calendar interval", so distinct slot rows carry distinct
`(start_at, end_at)` intervals. -/
def slotsWellFormed (slots : List ReservationSlotModel) : Prop :=
  slots.Pairwise (fun a b => ¬(a.startAt = b.startAt ∧ a.endAt = b.endAt))

/-! Concrete database states and requests used to witness and refute the
claims. -/

/-- A request window lying inside the published horizon. -/
def reqGoodWindow : ReserveLivestreamRequest :=
  { tags := [7], title := "t", description := "d", playlistUrl := "p",
    thumbnailUrl := "th", startAt := 1700874000, endAt := 1700881200 }

/-- Storage with one owner, one tag and one free slot covering
`reqGoodWindow`. -/
def dbReserveOk : DBState :=
  { users := [⟨1, "a"⟩], tags := [⟨7, "music"⟩], livestreams := [],
    livestreamTags := [],
    slots := [⟨1, 1, 1700874000, 1700881200⟩], nextLivestreamId := 1 }

/-- Storage whose window splits into two slots with capacities `[1, 0]`. -/
def dbTwoSlots : DBState :=
  { users := [⟨1, "a"⟩], tags := [⟨7, "music"⟩], livestreams := [],
    livestreamTags := [],
    slots := [⟨1, 1, 1700874000, 1700877600⟩, ⟨2, 0, 1700877600, 1700881200⟩],
    nextLivestreamId := 1 }

/-- A request whose window starts 100 seconds before the horizon start and
still overlaps the horizon. -/
def reqBeforeHorizon : ReserveLivestreamRequest :=
  { reqGoodWindow with tags := [], startAt := termStartAt - 100,
                       endAt := termStartAt + 1 }

/-- Storage with an owner but no slots and no tags. -/
def dbNoSlots : DBState :=
  { users := [⟨1, "a"⟩], tags := [], livestreams := [], livestreamTags := [],
    slots := [], nextLivestreamId := 1 }

/-- A request referencing tag id 999, which `dbNoSlots` does not contain. -/
def reqMissingTag : ReserveLivestreamRequest :=
  { reqGoodWindow with tags := [999] }

/-- A livestream row referencing owner 1; in `dbBulkOk` it carries one tag
join row. -/
def lmA : LivestreamModel := ⟨10, 1, "t", "d", "p", "th", 0, 1⟩

/-- A second livestream row sharing the same owner as `lmA`. -/
def lmB : LivestreamModel := ⟨11, 1, "u", "e", "q", "ti", 2, 3⟩

/-- A reaction row referencing user 1 and livestream 10. -/
def reA : ReactionModel := ⟨100, "smile", 1, 10, 5⟩

/-- A second reaction row by the same user on the same livestream. -/
def reB : ReactionModel := ⟨101, "heart", 1, 10, 6⟩

/-- Storage where livestream 10 carries tag 7 and all references resolve. -/
def dbBulkOk : DBState :=
  { users := [⟨1, "a"⟩], tags := [⟨7, "music"⟩], livestreams := [lmA],
    livestreamTags := [⟨1, 10, 7⟩], slots := [], nextLivestreamId := 11 }

/-- Storage identical to `dbBulkOk` except that no join rows exist at all. -/
def dbTagless : DBState :=
  { users := [⟨1, "a"⟩], tags := [⟨7, "music"⟩], livestreams := [lmA],
    livestreamTags := [], slots := [], nextLivestreamId := 11 }

/-- The reaction list produced by the bulk aggregation of `[reA]` over
`dbBulkOk`. -/
def reacOutOk : List Reaction :=
  [⟨100, "smile", ⟨1, "a"⟩, mkLivestream lmA ⟨1, "a"⟩ [⟨7, "music"⟩], 5⟩]

/-! Lemmas about the admission engine. -/

theorem checkSlots_error_cases {slots : List ReservationSlotModel}
    {e : ReserveErr} :
    ∀ {l : List ReservationSlotModel}, checkSlots slots l = .error e →
      e = .slotExhausted ∨ e = .getSlotFailed := by
  intro l
  induction l with
  | nil => intro h; simp [checkSlots] at h
  | cons s rest ih =>
    intro h
    unfold checkSlots at h
    split at h
    · simp only [Except.error.injEq] at h
      exact Or.inr h.symm
    · split at h
      · simp only [Except.error.injEq] at h
        exact Or.inl h.symm
      · exact ih h

theorem insertTags_error_cases {tagRows : List TagModel} {lid : Int}
    {e : ReserveErr} :
    ∀ {tids : List Int} {lts : List LivestreamTagModel},
      insertTags tagRows lid lts tids = .error e → e = .insertTagFailed := by
  intro tids
  induction tids with
  | nil => intro lts h; simp [insertTags] at h
  | cons t rest ih =>
    intro lts h
    unfold insertTags at h
    split at h
    · exact ih h
    · simp only [Except.error.injEq] at h
      exact h.symm

theorem insertTags_missing {tagRows : List TagModel} {lid : Int} :
    ∀ {tids : List Int} {lts : List LivestreamTagModel},
      (∃ t ∈ tids, ∀ tm ∈ tagRows, tm.id ≠ t) →
      insertTags tagRows lid lts tids = .error .insertTagFailed := by
  intro tids
  induction tids with
  | nil => intro lts h; rcases h with ⟨t, ht, _⟩; cases ht
  | cons t rest ih =>
    intro lts h
    unfold insertTags
    split
    · rename_i hany
      apply ih
      rcases h with ⟨u, hu, hmiss⟩
      rcases List.mem_cons.mp hu with rfl | hmem
      · rcases List.any_eq_true.mp hany with ⟨tm, htm, hbeq⟩
        exact absurd (beq_iff_eq.mp hbeq) (hmiss tm htm)
      · exact ⟨u, hmem, hmiss⟩
    · rfl

theorem getSlotCount_self {slots : List ReservationSlotModel}
    (hwf : slotsWellFormed slots) {s : ReservationSlotModel}
    (hs : s ∈ slots) : getSlotCount slots s = some s.slot := by
  unfold slotsWellFormed at hwf
  unfold getSlotCount
  induction slots with
  | nil => cases hs
  | cons a t ih =>
    rw [List.pairwise_cons] at hwf
    rcases List.mem_cons.mp hs with rfl | hmem
    · simp [List.find?_cons]
    · have hne : ¬(a.startAt = s.startAt ∧ a.endAt = s.endAt) :=
        hwf.1 s hmem
      have hfalse : (a.startAt == s.startAt && a.endAt == s.endAt) = false := by
        rw [Bool.eq_false_iff]
        intro hcontra
        exact hne (by simpa [Bool.and_eq_true, beq_iff_eq] using hcontra)
      rw [List.find?_cons]
      simp only [hfalse]
      exact ih hwf.2 hmem

theorem checkSlots_ok_bound {slots : List ReservationSlotModel} :
    ∀ {l : List ReservationSlotModel}, checkSlots slots l = .ok () →
      ∀ s ∈ l, ∀ c, getSlotCount slots s = some c → 1 ≤ c := by
  intro l
  induction l with
  | nil => intro _ s hs; cases hs
  | cons a t ih =>
    intro h s hs c hc
    unfold checkSlots at h
    split at h
    · cases h
    · rename_i count hcount
      split at h
      · cases h
      · rename_i hlt
        rcases List.mem_cons.mp hs with rfl | hmem
        · rw [hcount] at hc
          cases hc
          omega
        · exact ih h s hmem c hc

theorem reserve_snd (db : DBState) (uid : Int)
    (req : ReserveLivestreamRequest) :
    (reserve db uid req).2 = (reserveTx db uid req).2 := by
  unfold reserve
  rcases reserveTx db uid req with ⟨st, res⟩
  cases res <;> rfl

theorem reserve_error_state {db : DBState} {uid : Int}
    {req : ReserveLivestreamRequest} {e : ReserveErr}
    (h : (reserve db uid req).2 = .error e) : (reserve db uid req).1 = db := by
  unfold reserve at h ⊢
  rcases hr : reserveTx db uid req with ⟨st, res⟩
  rw [hr] at h
  cases res with
  | ok ls =>
    have h2 : (Except.ok ls : Except ReserveErr Livestream) = .error e := h
    exact Except.noConfusion h2
  | error e1 => rfl

theorem fillLivestreamResponse_ok_fields {db : DBState}
    {lm : LivestreamModel} {ls : Livestream}
    (h : fillLivestreamResponse db lm = .ok ls) :
    ls.id = lm.id ∧ ls.startAt = lm.startAt ∧ ls.endAt = lm.endAt := by
  unfold fillLivestreamResponse at h
  split at h
  · cases h
  · split at h
    · cases h
    · simp only [Except.ok.injEq] at h
      rw [← h]
      exact ⟨rfl, rfl, rfl⟩

theorem reserveTx_ok_spec {db st : DBState} {uid : Int}
    {req : ReserveLivestreamRequest} {ls : Livestream}
    (h : reserveTx db uid req = (st, .ok ls)) :
    badWindowCheck termStartAt termEndAt req.startAt req.endAt = false ∧
    checkSlots db.slots (db.slots.filter (inWindow req.startAt req.endAt)) =
      .ok () ∧
    st.slots = decrementSlots req.startAt req.endAt db.slots ∧
    ls.startAt = req.startAt ∧ ls.endAt = req.endAt := by
  unfold reserveTx at h
  split at h
  · simp at h
  · rename_i hw
    split at h
    · simp at h
    · rename_i u hchk
      split at h
      · simp at h
      · rename_i lts hins
        split at h
        · simp at h
        · rename_i ls0 hfill
          simp only [Prod.mk.injEq, Except.ok.injEq] at h
          rcases h with ⟨hst, rfl⟩
          refine ⟨Bool.eq_false_iff.mpr hw, ?_, ?_, ?_, ?_⟩
          · cases u; exact hchk
          · rw [← hst]; rfl
          · exact (fillLivestreamResponse_ok_fields hfill).2.1
          · exact (fillLivestreamResponse_ok_fields hfill).2.2

theorem reserve_ok_tx {db : DBState} {uid : Int}
    {req : ReserveLivestreamRequest} {ls : Livestream}
    (h : (reserve db uid req).2 = .ok ls) :
    reserveTx db uid req = ((reserve db uid req).1, .ok ls) := by
  unfold reserve at h ⊢
  rcases hr : reserveTx db uid req with ⟨st, res⟩
  rw [hr] at h
  cases res with
  | ok ls2 =>
    have h2 : (Except.ok ls2 : Except ReserveErr Livestream) = .ok ls := h
    cases h2
    rfl
  | error e =>
    have h2 : (Except.error e : Except ReserveErr Livestream) = .ok ls := h
    exact Except.noConfusion h2

theorem reserveTx_badWindow_iff (db : DBState) (uid : Int)
    (req : ReserveLivestreamRequest) :
    (reserveTx db uid req).2 = .error .badWindow ↔
      badWindowCheck termStartAt termEndAt req.startAt req.endAt = true := by
  unfold reserveTx
  split
  · rename_i hw
    simpa using hw
  · rename_i hw
    simp only [Bool.not_eq_true] at hw
    rw [hw]
    simp only [Bool.false_eq_true, iff_false]
    intro h
    split at h
    · rename_i e hchk
      simp only [Except.error.injEq] at h
      rcases checkSlots_error_cases hchk with h1 | h1 <;> simp [h1] at h
    · rename_i u hchk
      split at h
      · rename_i e hins
        simp only [Except.error.injEq] at h
        have h2 := insertTags_error_cases hins
        simp [h2] at h
      · rename_i lts hins
        split at h
        · simp at h
        · simp at h

/-- C1: from a state in which every reservation slot has nonnegative
capacity, Reserve leaves every slot capacity nonnegative on completion,
success or error: capacities are decremented only when the post-lock re-read
saw capacity at least 1 in every slot of the requested window.  Slot rows
are assumed to carry pairwise-distinct intervals (`slotsWellFormed`, the
schema constraint modelled from the spec). -/
theorem C1_capacity_invariant (db : DBState) (uid : Int)
    (req : ReserveLivestreamRequest) (hwf : slotsWellFormed db.slots)
    (hnn : ∀ s ∈ db.slots, 0 ≤ s.slot) :
    ∀ s ∈ (reserve db uid req).1.slots, 0 ≤ s.slot := by
  intro s hs
  rcases hres : (reserve db uid req).2 with e | ls
  · rw [reserve_error_state hres] at hs
    exact hnn s hs
  · have hspec := reserveTx_ok_spec (reserve_ok_tx hres)
    rw [hspec.2.2.1] at hs
    unfold decrementSlots at hs
    rcases List.mem_map.mp hs with ⟨s0, hs0, rfl⟩
    by_cases hin : inWindow req.startAt req.endAt s0 = true
    · have hb := checkSlots_ok_bound hspec.2.1 s0
        (List.mem_filter.mpr ⟨hs0, hin⟩) s0.slot (getSlotCount_self hwf hs0)
      rw [if_pos hin]
      simp only
      omega
    · rw [if_neg hin]
      exact hnn s0 hs0

/-- C1 witness: a concrete state and request satisfying the hypotheses. -/
theorem C1_witness :
    slotsWellFormed dbReserveOk.slots ∧
    (∀ s ∈ dbReserveOk.slots, 0 ≤ s.slot) ∧
    ∀ s ∈ (reserve dbReserveOk 1 reqGoodWindow).1.slots, 0 ≤ s.slot :=
  ⟨by unfold slotsWellFormed; decide, by decide,
   C1_capacity_invariant dbReserveOk 1 reqGoodWindow
     (by unfold slotsWellFormed; decide) (by decide)⟩

/-- C2: Reserve is all-or-nothing: an exhausted slot inside the requested
window forces an error outcome, and every error outcome leaves the database
exactly as it was — no slot decrement, no livestream row, no join rows. -/
theorem C2_reserve_all_or_nothing (db : DBState) (uid : Int)
    (req : ReserveLivestreamRequest) (hwf : slotsWellFormed db.slots) :
    ((∃ s ∈ db.slots, inWindow req.startAt req.endAt s = true ∧ s.slot < 1) →
      ∃ e, reserve db uid req = (db, .error e)) ∧
    ∀ e, (reserve db uid req).2 = .error e →
      reserve db uid req = (db, .error e) := by
  have hunch : ∀ e, (reserve db uid req).2 = .error e →
      reserve db uid req = (db, .error e) := by
    intro e he
    calc reserve db uid req
        = ((reserve db uid req).1, (reserve db uid req).2) := rfl
      _ = (db, .error e) := by rw [reserve_error_state he, he]
  refine ⟨?_, hunch⟩
  intro hex
  rcases hres : (reserve db uid req).2 with e | ls
  · exact ⟨e, hunch e hres⟩
  · exfalso
    have hspec := reserveTx_ok_spec (reserve_ok_tx hres)
    rcases hex with ⟨s, hs, hin, hlt⟩
    have hb := checkSlots_ok_bound hspec.2.1 s
      (List.mem_filter.mpr ⟨hs, hin⟩) s.slot (getSlotCount_self hwf hs)
    omega

/-- C2 witness: the spec test case, a window spanning two slots with
capacities `[1, 0]`: Reserve fails and the first slot keeps capacity 1. -/
theorem C2_witness :
    slotsWellFormed dbTwoSlots.slots ∧
    (∃ s ∈ dbTwoSlots.slots,
      inWindow reqGoodWindow.startAt reqGoodWindow.endAt s = true ∧
      s.slot < 1) ∧
    ∃ e, reserve dbTwoSlots 1 reqGoodWindow = (dbTwoSlots, .error e) :=
  ⟨by unfold slotsWellFormed; decide, by decide,
   (C2_reserve_all_or_nothing dbTwoSlots 1 reqGoodWindow
     (by unfold slotsWellFormed; decide)).1 (by decide)⟩

/-- C3: Reserve rejects with the bad-window error exactly when the window
start is at or after the horizon end or the window end is at or before the
horizon start; for every nonempty horizon, `[horizonEnd, horizonEnd+1]` is
rejected and `[horizonStart, horizonStart+1]` passes the window check. -/
theorem C3_bad_window_boundary :
    (∀ hs he s e : Int,
      badWindowCheck hs he s e = true ↔ (he ≤ s ∨ e ≤ hs)) ∧
    (∀ hs he : Int, badWindowCheck hs he he (he + 1) = true) ∧
    (∀ hs he : Int, hs < he → badWindowCheck hs he hs (hs + 1) = false) ∧
    ∀ (db : DBState) (uid : Int) (req : ReserveLivestreamRequest),
      (reserve db uid req).2 = .error .badWindow ↔
        badWindowCheck termStartAt termEndAt req.startAt req.endAt = true := by
  refine ⟨?_, ?_, ?_, ?_⟩
  · intro hs he s e
    simp [badWindowCheck]
  · intro hs he
    simp [badWindowCheck]
  · intro hs he h
    simp only [badWindowCheck, Bool.or_eq_false_iff, decide_eq_false_iff_not]
    omega
  · intro db uid req
    rw [reserve_snd]
    exact reserveTx_badWindow_iff db uid req

/-- C3 witness: the boundary cases at the concrete horizon `[0, 10)`. -/
theorem C3_witness :
    ((0 : Int) < 10 ∧ badWindowCheck 0 10 0 1 = false) ∧
    badWindowCheck 0 10 10 11 = true :=
  ⟨⟨by decide, C3_bad_window_boundary.2.2.1 0 10 (by decide)⟩,
   C3_bad_window_boundary.2.1 0 10⟩

/-- C4 counterexample: on `dbNoSlots`, the request whose window starts 100
seconds before the horizon start succeeds, so a successful Reserve does not
imply `horizonStart <= start`: the handler only rejects windows that fail to
overlap the horizon. -/
theorem C4_counterexample :
    (reserve dbNoSlots 1 reqBeforeHorizon).2.toOption.map (fun l => l.startAt)
      = some (termStartAt - 100) ∧
    ¬ termStartAt ≤ termStartAt - 100 :=
  ⟨rfl, by decide⟩

/-- C4 (amended): every livestream created by a successful Reserve has a
window that strictly overlaps the horizon — start before the horizon end and
end after the horizon start; full containment is not enforced. -/
theorem C4_window_overlaps_horizon (db : DBState) (uid : Int)
    (req : ReserveLivestreamRequest) (ls : Livestream)
    (h : (reserve db uid req).2 = .ok ls) :
    ls.startAt < termEndAt ∧ termStartAt < ls.endAt := by
  rcases reserveTx_ok_spec (reserve_ok_tx h) with ⟨hw, _, _, h1, h2⟩
  rw [h1, h2]
  have hw2 : ¬ termEndAt ≤ req.startAt ∧ ¬ req.endAt ≤ termStartAt := by
    simpa [badWindowCheck] using hw
  omega

/-- The livestream representation returned by the successful reservation on
`dbReserveOk`. -/
def lsReserveOk : Livestream :=
  { id := 1, owner := ⟨1, "a"⟩, title := "t", description := "d",
    playlistUrl := "p", thumbnailUrl := "th", tags := [⟨7, "music"⟩],
    startAt := 1700874000, endAt := 1700881200 }

/-- C4 witness: a concrete successful reservation. -/
theorem C4_witness :
    (reserve dbReserveOk 1 reqGoodWindow).2 = .ok lsReserveOk ∧
    (lsReserveOk.startAt < termEndAt ∧ termStartAt < lsReserveOk.endAt) :=
  ⟨rfl, C4_window_overlaps_horizon dbReserveOk 1 reqGoodWindow lsReserveOk rfl⟩

/-- C9 counterexample: a reserve request referencing the missing tag id 999
fails with the `insertTagFailed` outcome, whose HTTP status is the same 500
the handler uses for storage failures — not a distinct client-error
outcome. -/
theorem C9_counterexample :
    reserve dbNoSlots 1 reqMissingTag = (dbNoSlots, .error .insertTagFailed) ∧
    ReserveErr.status .insertTagFailed = ReserveErr.status .getSlotFailed ∧
    ReserveErr.status .insertTagFailed ≠ 400 :=
  ⟨rfl, rfl, by decide⟩

/-- C9 (amended): a Reserve request containing a tag id that no stored tag
carries fails with the internal-server-error outcome `insertTagFailed`
(status 500, the storage-error class) and the transaction is rolled back: no
partial tag inserts, livestream row or slot decrement is observable. -/
theorem C9_missing_tag_aborts (db : DBState) (uid : Int)
    (req : ReserveLivestreamRequest)
    (hw : badWindowCheck termStartAt termEndAt req.startAt req.endAt = false)
    (hchk : checkSlots db.slots
      (db.slots.filter (inWindow req.startAt req.endAt)) = .ok ())
    (ht : ∃ t ∈ req.tags, ∀ tm ∈ db.tags, tm.id ≠ t) :
    reserve db uid req = (db, .error .insertTagFailed) ∧
    ReserveErr.status .insertTagFailed = 500 := by
  have hins :=
    @insertTags_missing db.tags db.nextLivestreamId req.tags
      db.livestreamTags ht
  have htx : reserveTx db uid req =
      (reserveMid db uid req, .error .insertTagFailed) := by
    unfold reserveTx
    rw [hw]
    simp only [Bool.false_eq_true, if_false]
    rw [hchk, hins]
  refine ⟨?_, rfl⟩
  unfold reserve
  rw [htx]

/-- C9 witness: the hypotheses of `C9_missing_tag_aborts` hold at the
concrete failing request. -/
theorem C9_witness :
    badWindowCheck termStartAt termEndAt reqMissingTag.startAt
      reqMissingTag.endAt = false ∧
    checkSlots dbNoSlots.slots
      (dbNoSlots.slots.filter
        (inWindow reqMissingTag.startAt reqMissingTag.endAt)) = .ok () ∧
    (∃ t ∈ reqMissingTag.tags, ∀ tm ∈ dbNoSlots.tags, tm.id ≠ t) ∧
    reserve dbNoSlots 1 reqMissingTag = (dbNoSlots, .error .insertTagFailed) :=
  ⟨by decide, rfl, by decide,
   (C9_missing_tag_aborts dbNoSlots 1 reqMissingTag (by decide) rfl
     (by decide)).1⟩

/-! Lemmas about Go-map construction by fold. -/

theorem foldl_mapInsert_lookup {α β : Type} (g : α → Int) (f : α → β) :
    ∀ (l : List α) (acc : IdMap β) (k : Int),
      (l.foldl (fun m x => mapInsert m (g x) (f x)) acc) k =
        match l.reverse.find? (fun x => g x == k) with
        | some x => some (f x)
        | none => acc k := by
  intro l
  induction l with
  | nil => intro acc k; rfl
  | cons a t ih =>
    intro acc k
    rw [List.foldl_cons, ih, List.reverse_cons, List.find?_append]
    cases hf : t.reverse.find? (fun x => g x == k) with
    | some x => rfl
    | none =>
      simp only [Option.none_or]
      rw [List.find?_cons]
      cases hga : (g a == k) with
      | true =>
        have hk : k = g a := (beq_iff_eq.mp hga).symm
        simp [mapInsert, hk]
      | false =>
        have hk : ¬ k = g a := by
          intro hk2
          rw [hk2] at hga
          simp at hga
        simp [mapInsert, hk]

theorem find?_reverse_of_nodup {α : Type} (g : α → Int) :
    ∀ l : List α, (l.map g).Nodup →
      ∀ k, l.reverse.find? (fun x => g x == k) =
        l.find? (fun x => g x == k) := by
  intro l
  induction l with
  | nil => intro _ k; rfl
  | cons a t ih =>
    intro hnd k
    rw [List.map_cons, List.nodup_cons] at hnd
    rw [List.reverse_cons, List.find?_append, ih hnd.2]
    cases hga : (g a == k) with
    | true =>
      have hk : g a = k := beq_iff_eq.mp hga
      have hnone : t.find? (fun x => g x == k) = none := by
        rw [List.find?_eq_none]
        intro x hx hbeq
        apply hnd.1
        have h2 : g x = g a := by rw [beq_iff_eq.mp hbeq, hk]
        rw [← h2]
        exact List.mem_map_of_mem g hx
      rw [hnone]
      simp [List.find?_cons, hga]
    | false =>
      simp [List.find?_cons, hga]

theorem foldl_insert_nodup_lookup {α β : Type} (g : α → Int) (f : α → β)
    (l : List α) (hnd : (l.map g).Nodup) (k : Int) :
    (l.foldl (fun m x => mapInsert m (g x) (f x)) emptyMap) k =
      (l.find? (fun x => g x == k)).map f := by
  rw [foldl_mapInsert_lookup, find?_reverse_of_nodup g l hnd]
  cases l.find? (fun x => g x == k) <;> rfl

theorem fillUserResponseBulk_lookup (us : List UserModel)
    (hnd : (us.map (fun u => u.id)).Nodup) (k : Int) :
    fillUserResponseBulk us k =
      (us.find? (fun u => u.id == k)).map fillUserResponse := by
  unfold fillUserResponseBulk
  exact foldl_insert_nodup_lookup (fun u => u.id) fillUserResponse us hnd k

theorem buildTagMap_lookup (ts : List TagModel)
    (hnd : (ts.map (fun t => t.id)).Nodup) (k : Int) :
    buildTagMap ts k =
      (ts.find? (fun t => t.id == k)).map (fun t => Tag.mk t.id t.name) := by
  unfold buildTagMap
  exact foldl_insert_nodup_lookup (fun t => t.id)
    (fun t => Tag.mk t.id t.name) ts hnd k

theorem find?_filter_of_imp {α : Type} {p q : α → Bool}
    (himp : ∀ x, q x = true → p x = true) :
    ∀ l : List α, (l.filter p).find? q = l.find? q := by
  intro l
  induction l with
  | nil => rfl
  | cons a t ih =>
    rw [List.filter_cons]
    cases hp : p a with
    | true =>
      simp only [if_true]
      rw [List.find?_cons, List.find?_cons]
      cases hq : q a with
      | true => rfl
      | false => exact ih
    | false =>
      simp only [Bool.false_eq_true, if_false]
      rw [ih, List.find?_cons]
      cases hq : q a with
      | true => exact absurd (himp a hq) (by simp [hp])
      | false => rfl

theorem filter_filter_of_imp {α : Type} {p q : α → Bool} (l : List α)
    (himp : ∀ x ∈ l, q x = true → p x = true) :
    (l.filter p).filter q = l.filter q := by
  rw [List.filter_filter]
  apply List.filter_congr
  intro x hx
  cases hq : q x with
  | true => simp [hq, himp x hx hq]
  | false => simp [hq]

theorem groupTagsByLivestream_foldl :
    ∀ (rows : List LivestreamTagModel)
      (acc : IdMap (List LivestreamTagModel)) (k : Int),
      ((rows.foldl
        (fun m r =>
          mapInsert m r.livestreamId ((m r.livestreamId).getD [] ++ [r]))
        acc) k).getD []
        = (acc k).getD [] ++ rows.filter (fun r => r.livestreamId == k) := by
  intro rows
  induction rows with
  | nil => intro acc k; simp
  | cons r t ih =>
    intro acc k
    rw [List.foldl_cons, ih, List.filter_cons]
    by_cases hk : r.livestreamId = k
    · have hbeq : (r.livestreamId == k) = true := beq_iff_eq.mpr hk
      simp [mapInsert, hk, hbeq, List.append_assoc]
    · have h2 : ¬ k = r.livestreamId := fun h => hk h.symm
      have h3 : (r.livestreamId == k) = false := by
        simpa using hk
      simp [mapInsert, h2, h3]

theorem groupTagsByLivestream_getD (rows : List LivestreamTagModel)
    (k : Int) :
    ((groupTagsByLivestream rows) k).getD [] =
      rows.filter (fun r => r.livestreamId == k) := by
  have h := groupTagsByLivestream_foldl rows emptyMap k
  simpa [emptyMap] using h

/-! Lemmas about the bulk assembly loops. -/

theorem fillTags_ok (tagRows : List TagModel) :
    ∀ lts : List LivestreamTagModel,
      (∀ lt ∈ lts, (getTagById tagRows lt.tagId).isSome = true) →
      ∃ ts, fillTags tagRows lts = .ok ts := by
  intro lts
  induction lts with
  | nil => intro _; exact ⟨[], rfl⟩
  | cons lt rest ih =>
    intro hall
    unfold fillTags
    cases hg : getTagById tagRows lt.tagId with
    | none =>
      have h1 := hall lt (List.mem_cons_self lt rest)
      rw [hg] at h1
      cases h1
    | some tm =>
      rcases ih (fun x hx => hall x (List.mem_cons_of_mem lt hx)) with ⟨ts, hts⟩
      rw [hts]
      exact ⟨Tag.mk tm.id tm.name :: ts, rfl⟩

theorem lookupTags_eq_fillTags (tagMap : IdMap Tag) (tagRows : List TagModel) :
    ∀ lts : List LivestreamTagModel,
      (∀ lt ∈ lts, tagMap lt.tagId =
        (getTagById tagRows lt.tagId).map (fun tm => Tag.mk tm.id tm.name)) →
      (∀ lt ∈ lts, (getTagById tagRows lt.tagId).isSome = true) →
      lookupTags tagMap lts = fillTags tagRows lts := by
  intro lts
  induction lts with
  | nil => intro _ _; rfl
  | cons lt rest ih =>
    intro hmap hall
    unfold lookupTags fillTags
    rw [hmap lt (List.mem_cons_self lt rest)]
    cases hg : getTagById tagRows lt.tagId with
    | none =>
      have h1 := hall lt (List.mem_cons_self lt rest)
      rw [hg] at h1
      cases h1
    | some tm =>
      rw [ih (fun x hx => hmap x (List.mem_cons_of_mem lt hx))
        (fun x hx => hall x (List.mem_cons_of_mem lt hx))]
      rfl

theorem assembleLivestreams_ok_of (oM : IdMap User)
    (lM : IdMap (List LivestreamTagModel)) (tM : IdMap Tag) :
    ∀ (rows : List LivestreamModel) (acc : IdMap Livestream),
      (∀ r ∈ rows, (oM r.userId).isSome = true ∧
        (lookupTags tM ((lM r.id).getD [])).isOk = true) →
      ∃ m, assembleLivestreams oM lM tM acc rows = .ok m := by
  intro rows
  induction rows with
  | nil => intro acc _; exact ⟨acc, rfl⟩
  | cons r t ih =>
    intro acc hall
    have h1 := (hall r (List.mem_cons_self r t)).1
    have h2 := (hall r (List.mem_cons_self r t)).2
    unfold assembleLivestreams
    cases ho : oM r.userId with
    | none => rw [ho] at h1; cases h1
    | some owner =>
      cases hl : lookupTags tM ((lM r.id).getD []) with
      | error e => rw [hl] at h2; cases h2
      | ok tags => exact ih _ (fun x hx => hall x (List.mem_cons_of_mem r hx))

theorem assembleLivestreams_lookup_preserved (oM : IdMap User)
    (lM : IdMap (List LivestreamTagModel)) (tM : IdMap Tag) :
    ∀ (rows : List LivestreamModel) (acc m : IdMap Livestream) (k : Int),
      assembleLivestreams oM lM tM acc rows = .ok m →
      (∀ r ∈ rows, r.id ≠ k) → m k = acc k := by
  intro rows
  induction rows with
  | nil =>
    intro acc m k h hne
    cases h
    rfl
  | cons r t ih =>
    intro acc m k h hne
    unfold assembleLivestreams at h
    cases ho : oM r.userId with
    | none => rw [ho] at h; exact Except.noConfusion h
    | some owner =>
      rw [ho] at h
      cases hl : lookupTags tM ((lM r.id).getD []) with
      | error e => rw [hl] at h; exact Except.noConfusion h
      | ok tags =>
        rw [hl] at h
        have hm := ih _ m k h (fun x hx => hne x (List.mem_cons_of_mem r hx))
        rw [hm]
        unfold mapInsert
        rw [if_neg (fun hk => hne r (List.mem_cons_self r t) hk.symm)]

theorem assembleLivestreams_ok_mem (oM : IdMap User)
    (lM : IdMap (List LivestreamTagModel)) (tM : IdMap Tag) :
    ∀ (rows : List LivestreamModel) (acc m : IdMap Livestream),
      assembleLivestreams oM lM tM acc rows = .ok m →
      (rows.map (fun r => r.id)).Nodup →
      ∀ r ∈ rows, ∃ owner tags,
        oM r.userId = some owner ∧
        lookupTags tM ((lM r.id).getD []) = .ok tags ∧
        m r.id = some (mkLivestream r owner tags) := by
  intro rows
  induction rows with
  | nil => intro acc m _ _ r hr; cases hr
  | cons x t ih =>
    intro acc m h hnd r hr
    rw [List.map_cons, List.nodup_cons] at hnd
    unfold assembleLivestreams at h
    cases ho : oM x.userId with
    | none => rw [ho] at h; exact Except.noConfusion h
    | some owner =>
      rw [ho] at h
      cases hl : lookupTags tM ((lM x.id).getD []) with
      | error e => rw [hl] at h; exact Except.noConfusion h
      | ok tags =>
        rw [hl] at h
        rcases List.mem_cons.mp hr with rfl | hmem
        · refine ⟨owner, tags, ho, hl, ?_⟩
          have hpres := assembleLivestreams_lookup_preserved oM lM tM t _ m
            r.id h ?_
          · rw [hpres]
            unfold mapInsert
            rw [if_pos rfl]
          · intro y hy hyk
            exact hnd.1 (hyk ▸ List.mem_map_of_mem (fun r => r.id) hy)
        · exact ih _ m h hnd.2 r hmem

theorem fillUserResponseBulk_id :
    ∀ (us : List UserModel) (acc : IdMap User),
      (∀ k u, acc k = some u → u.id = k) →
      ∀ k u,
        (us.foldl (fun m x => mapInsert m x.id (fillUserResponse x)) acc) k
          = some u → u.id = k := by
  intro us
  induction us with
  | nil => intro acc hacc k u h; exact hacc k u h
  | cons x t ih =>
    intro acc hacc k u h
    refine ih _ ?_ k u h
    intro k2 u2 h2
    have h3 : (if k2 = x.id then some (fillUserResponse x) else acc k2)
        = some u2 := h2
    split at h3
    · rename_i heq
      cases h3
      rw [heq]
      rfl
    · exact hacc k2 u2 h3

theorem reacUserMap_id (db : DBState) (rows : List ReactionModel)
    (k : Int) (u : User) (h : reacUserMap db rows k = some u) : u.id = k := by
  refine fillUserResponseBulk_id _ emptyMap ?_ k u h
  intro k2 u2 h2
  exact Option.noConfusion h2

theorem assembleLivestreams_id (oM : IdMap User)
    (lM : IdMap (List LivestreamTagModel)) (tM : IdMap Tag) :
    ∀ (rows : List LivestreamModel) (acc m : IdMap Livestream),
      (∀ k ls, acc k = some ls → ls.id = k) →
      assembleLivestreams oM lM tM acc rows = .ok m →
      ∀ k ls, m k = some ls → ls.id = k := by
  intro rows
  induction rows with
  | nil =>
    intro acc m hacc h
    cases h
    exact hacc
  | cons x t ih =>
    intro acc m hacc h
    unfold assembleLivestreams at h
    cases ho : oM x.userId with
    | none => rw [ho] at h; exact Except.noConfusion h
    | some owner =>
      rw [ho] at h
      cases hl : lookupTags tM ((lM x.id).getD []) with
      | error e => rw [hl] at h; exact Except.noConfusion h
      | ok tags =>
        rw [hl] at h
        refine ih _ m ?_ h
        intro k2 ls2 h2
        have h3 : (if k2 = x.id then
            some (mkLivestream x owner tags) else acc k2) = some ls2 := h2
        split at h3
        · rename_i heq
          cases h3
          rw [heq]
          rfl
        · exact hacc k2 ls2 h3

theorem fillLivestreamResponseBulk_id (db : DBState)
    (rows : List LivestreamModel) (m : IdMap Livestream)
    (h : (fillLivestreamResponseBulk db rows).2 = .ok m) :
    ∀ k ls, m k = some ls → ls.id = k := by
  unfold fillLivestreamResponseBulk at h
  split at h
  · intro k ls hk
    have h2 : (Except.ok (emptyMap : IdMap Livestream) :
        Except String (IdMap Livestream)) = .ok m := h
    cases h2
    exact Option.noConfusion hk
  · split at h
    · exact Except.noConfusion h
    · refine assembleLivestreams_id _ _ _ rows emptyMap m ?_ h
      intro k ls hk
      exact Option.noConfusion hk

theorem assembleReactions_spec (uM : IdMap User) (lsM : IdMap Livestream)
    (hu : ∀ k u, uM k = some u → u.id = k)
    (hl : ∀ k ls, lsM k = some ls → ls.id = k) :
    ∀ (rows : List ReactionModel) (out : List Reaction),
      assembleReactions uM lsM rows = .ok out →
      out.length = rows.length ∧
      ∀ (i : Nat) (h1 : i < rows.length) (h2 : i < out.length),
        (out.get ⟨i, h2⟩).id = (rows.get ⟨i, h1⟩).id ∧
        (out.get ⟨i, h2⟩).emojiName = (rows.get ⟨i, h1⟩).emojiName ∧
        (out.get ⟨i, h2⟩).createdAt = (rows.get ⟨i, h1⟩).createdAt ∧
        (out.get ⟨i, h2⟩).user.id = (rows.get ⟨i, h1⟩).userId ∧
        (out.get ⟨i, h2⟩).livestream.id = (rows.get ⟨i, h1⟩).livestreamId := by
  intro rows
  induction rows with
  | nil =>
    intro out h
    cases h
    exact ⟨rfl, fun i h1 => absurd h1 (by simp)⟩
  | cons r t ih =>
    intro out h
    unfold assembleReactions at h
    cases hur : uM r.userId with
    | none => rw [hur] at h; exact Except.noConfusion h
    | some u =>
      rw [hur] at h
      cases hlr : lsM r.livestreamId with
      | none => rw [hlr] at h; exact Except.noConfusion h
      | some ls =>
        rw [hlr] at h
        cases hrec : assembleReactions uM lsM t with
        | error e =>
          rw [hrec] at h
          exact Except.noConfusion h
        | ok out2 =>
          rw [hrec] at h
          have h3 : (Except.ok
              (Reaction.mk r.id r.emojiName u ls r.createdAt :: out2) :
              Except String (List Reaction)) = .ok out := h
          cases h3
          obtain ⟨hlen, hpt⟩ := ih out2 hrec
          refine ⟨by simp [hlen], ?_⟩
          intro i h1 h2
          cases i with
          | zero => exact ⟨rfl, rfl, rfl, hu _ _ hur, hl _ _ hlr⟩
          | succ j =>
            exact hpt j (Nat.lt_of_succ_lt_succ h1)
              (Nat.lt_of_succ_lt_succ h2)

theorem isEmpty_false_of_ne_nil {α : Type} {l : List α} (h : l ≠ []) :
    l.isEmpty = false := by
  cases h2 : l.isEmpty
  · rfl
  · exact absurd (List.isEmpty_iff.mp h2) h

theorem fillLivestreamResponseBulk_log_shape (db : DBState)
    (rows : List LivestreamModel) (hl : rows ≠ [])
    (hok : (fillLivestreamResponseBulk db rows).2.isOk = true) :
    (fillLivestreamResponseBulk db rows).1 =
      [Query.usersIn (bulkUserIDs rows),
       Query.livestreamTagsIn (bulkLivestreamIDs rows),
       Query.tagsIn (bulkTagIDs db rows)] := by
  have hne : rows.isEmpty = false := isEmpty_false_of_ne_nil hl
  unfold fillLivestreamResponseBulk at hok ⊢
  rw [hne] at hok ⊢
  simp only [Bool.false_eq_true, if_false] at hok ⊢
  by_cases ht : (bulkTagIDs db rows).isEmpty = true
  · rw [if_pos ht] at hok
    simp [Except.isOk, Except.toBool] at hok
  · rw [if_neg ht]

theorem assembleReactions_emptyMap (uM : IdMap User) (r : ReactionModel)
    (rest : List ReactionModel) :
    (assembleReactions uM emptyMap (r :: rest)).isOk = false := by
  unfold assembleReactions
  cases uM r.userId <;> rfl

theorem fillLivestreamResponseBulk_log_cases (db : DBState)
    (rows : List LivestreamModel) (hl : rows ≠ []) :
    (fillLivestreamResponseBulk db rows).1 =
      [Query.usersIn (bulkUserIDs rows),
       Query.livestreamTagsIn (bulkLivestreamIDs rows)] ∨
    (fillLivestreamResponseBulk db rows).1 =
      [Query.usersIn (bulkUserIDs rows),
       Query.livestreamTagsIn (bulkLivestreamIDs rows),
       Query.tagsIn (bulkTagIDs db rows)] := by
  have hne := isEmpty_false_of_ne_nil hl
  unfold fillLivestreamResponseBulk
  rw [hne]
  simp only [Bool.false_eq_true, if_false]
  by_cases htg : (bulkTagIDs db rows).isEmpty = true
  · rw [if_pos htg]
    exact Or.inl rfl
  · rw [if_neg htg]
    exact Or.inr rfl

theorem fillReactionResponseBulk_log_len (db : DBState)
    (rrows : List ReactionModel) (hr : rrows ≠ []) :
    (fillReactionResponseBulk db rrows).1.length ≤ 5 := by
  have hne := isEmpty_false_of_ne_nil hr
  unfold fillReactionResponseBulk
  rw [hne]
  simp only [Bool.false_eq_true, if_false]
  rcases hsub : fillLivestreamResponseBulk db (reacLsModels db rrows)
    with ⟨subLog, subRes⟩
  have hsl : subLog.length ≤ 3 := by
    by_cases hls : reacLsModels db rrows = []
    · rw [hls] at hsub
      have h0 : ([] : List Query) = subLog := congrArg Prod.fst hsub
      rw [← h0]
      simp
    · rcases fillLivestreamResponseBulk_log_cases db _ hls with hc | hc <;>
        rw [hsub] at hc <;> rw [show subLog = (subLog, subRes).1 from rfl, hc] <;>
        simp
  cases subRes <;> simp <;> omega

/-- C6 (amended): for every nonempty input the bulk aggregators issue at
most their fixed query sequence — never one query per input row — and on
every successful run exactly that fixed sequence: three IN queries for
livestreams (users, livestream_tags, tags) and five for reactions (users,
livestreams, then the three of the livestream sub-aggregation), a constant
independent of the number N of input rows. -/
theorem C6_constant_queries (db : DBState) (lrows : List LivestreamModel)
    (rrows : List ReactionModel) :
    (lrows ≠ [] →
      (fillLivestreamResponseBulk db lrows).1.length ≤ 3 ∧
      ((fillLivestreamResponseBulk db lrows).2.isOk = true →
        ∃ ka kb kc, (fillLivestreamResponseBulk db lrows).1 =
          [Query.usersIn ka, Query.livestreamTagsIn kb, Query.tagsIn kc])) ∧
    (rrows ≠ [] →
      (fillReactionResponseBulk db rrows).1.length ≤ 5 ∧
      ((fillReactionResponseBulk db rrows).2.isOk = true →
        ∃ k1 k2 k3 k4 k5, (fillReactionResponseBulk db rrows).1 =
          [Query.usersIn k1, Query.livestreamsIn k2, Query.usersIn k3,
           Query.livestreamTagsIn k4, Query.tagsIn k5])) := by
  constructor
  · intro hl
    refine ⟨?_, ?_⟩
    · rcases fillLivestreamResponseBulk_log_cases db lrows hl with hc | hc <;>
        rw [hc] <;> simp
    · intro hok
      exact ⟨_, _, _, fillLivestreamResponseBulk_log_shape db lrows hl hok⟩
  · intro hr
    refine ⟨fillReactionResponseBulk_log_len db rrows hr, ?_⟩
    intro hok
    have hne : rrows.isEmpty = false := isEmpty_false_of_ne_nil hr
    unfold fillReactionResponseBulk at hok ⊢
    rw [hne] at hok ⊢
    simp only [Bool.false_eq_true, if_false] at hok ⊢
    rcases hsub : fillLivestreamResponseBulk db (reacLsModels db rrows)
      with ⟨subLog, subRes⟩
    rw [hsub] at hok
    cases subRes with
    | error e => simp [Except.isOk, Except.toBool] at hok
    | ok lsMap =>
      by_cases hls : reacLsModels db rrows = []
      · exfalso
        rw [hls] at hsub
        have h4 : (([], Except.ok emptyMap) :
            List Query × Except String (IdMap Livestream))
            = (subLog, Except.ok lsMap) := by rw [← hsub]; rfl
        simp only [Prod.mk.injEq, Except.ok.injEq] at h4
        rcases rrows with _ | ⟨r, rest⟩
        · exact hr rfl
        · have hok3 : (assembleReactions (reacUserMap db (r :: rest))
              lsMap (r :: rest)).isOk = true := hok
          rw [← h4.2] at hok3
          rw [assembleReactions_emptyMap] at hok3
          exact Bool.noConfusion hok3
      · have hok2 :
            (fillLivestreamResponseBulk db (reacLsModels db rrows)).2.isOk
              = true := by rw [hsub]; rfl
        have hshape := fillLivestreamResponseBulk_log_shape db _ hls hok2
        rw [hsub] at hshape
        have hsl : subLog =
            [Query.usersIn (bulkUserIDs (reacLsModels db rrows)),
             Query.livestreamTagsIn (bulkLivestreamIDs (reacLsModels db rrows)),
             Query.tagsIn (bulkTagIDs db (reacLsModels db rrows))] := hshape
        subst hsl
        exact ⟨_, _, _, _, _, rfl⟩

/-- C6 counterexample: on the nonempty input `[lmA]` over storage with no
join rows, the aggregator issues only the users and livestream_tags queries
— not one IN query per each of the three referenced entity types. -/
theorem C6_counterexample :
    (fillLivestreamResponseBulk dbTagless [lmA]).1 =
      [Query.usersIn [1], Query.livestreamTagsIn [10]] ∧
    (fillLivestreamResponseBulk dbTagless [lmA]).1.length ≠ 3 :=
  ⟨rfl, by decide⟩

/-- C6 witness: the concrete bounds and logs for one-row inputs. -/
theorem C6_witness :
    ((fillLivestreamResponseBulk dbBulkOk [lmA]).1.length ≤ 3 ∧
     ∃ ka kb kc, (fillLivestreamResponseBulk dbBulkOk [lmA]).1 =
       [Query.usersIn ka, Query.livestreamTagsIn kb, Query.tagsIn kc]) ∧
    ((fillReactionResponseBulk dbBulkOk [reA]).1.length ≤ 5 ∧
     ∃ k1 k2 k3 k4 k5, (fillReactionResponseBulk dbBulkOk [reA]).1 =
       [Query.usersIn k1, Query.livestreamsIn k2, Query.usersIn k3,
        Query.livestreamTagsIn k4, Query.tagsIn k5]) :=
  ⟨⟨((C6_constant_queries dbBulkOk [lmA] [reA]).1 (List.cons_ne_nil _ _)).1,
    ((C6_constant_queries dbBulkOk [lmA] [reA]).1 (List.cons_ne_nil _ _)).2
      rfl⟩,
   ⟨((C6_constant_queries dbBulkOk [lmA] [reA]).2 (List.cons_ne_nil _ _)).1,
    ((C6_constant_queries dbBulkOk [lmA] [reA]).2 (List.cons_ne_nil _ _)).2
      rfl⟩⟩

/-- C7 counterexample: two input rows sharing owner id 1 put the duplicated
key list `[1, 1]` into the users IN query — the key list is not
deduplicated. -/
theorem C7_counterexample :
    (fillLivestreamResponseBulk dbBulkOk [lmA, lmB]).1.head? =
      some (Query.usersIn [1, 1]) ∧
    ¬ ([1, 1] : List Int).Nodup :=
  ⟨rfl, by decide⟩

/-- C7 (amended): each bulk aggregator passes to its users IN query the key
list with one entry per input row, in input order and with duplicates
retained; filtering over that key list selects the same rows as filtering
over its deduplicated form, so the duplicates do not change the query
result. -/
theorem C7_keys_one_per_row (db : DBState) (lrows : List LivestreamModel)
    (rrows : List ReactionModel) (hl : lrows ≠ []) (hr : rrows ≠ []) :
    (fillLivestreamResponseBulk db lrows).1.head? =
      some (Query.usersIn (lrows.map (fun r => r.userId))) ∧
    (fillReactionResponseBulk db rrows).1.head? =
      some (Query.usersIn (rrows.map (fun r => r.userId))) ∧
    ∀ keys : List Int,
      db.users.filter (fun u => keys.contains u.id) =
        db.users.filter (fun u => keys.dedup.contains u.id) := by
  refine ⟨?_, ?_, ?_⟩
  · have hne : lrows.isEmpty = false := isEmpty_false_of_ne_nil hl
    unfold fillLivestreamResponseBulk
    rw [hne]
    simp only [Bool.false_eq_true, if_false]
    by_cases ht : (bulkTagIDs db lrows).isEmpty = true
    · rw [if_pos ht]
      rfl
    · rw [if_neg ht]
      rfl
  · have hne : rrows.isEmpty = false := isEmpty_false_of_ne_nil hr
    unfold fillReactionResponseBulk
    rw [hne]
    simp only [Bool.false_eq_true, if_false]
    rcases hsub : fillLivestreamResponseBulk db (reacLsModels db rrows)
      with ⟨subLog, subRes⟩
    cases subRes <;> rfl
  · intro keys
    apply List.filter_congr
    intro u _
    rw [Bool.eq_iff_iff]
    constructor
    · intro hc
      have hmem : u.id ∈ keys := List.elem_iff.mp hc
      exact List.elem_iff.mpr (List.mem_dedup.mpr hmem)
    · intro hc
      have hmem : u.id ∈ keys.dedup := List.elem_iff.mp hc
      exact List.elem_iff.mpr (List.mem_dedup.mp hmem)

/-- C7 witness: the reaction aggregator on two rows sharing user 1 logs the
duplicated key list, and filtering by it equals filtering by its dedup. -/
theorem C7_witness :
    (fillReactionResponseBulk dbBulkOk [reA, reB]).1.head? =
      some (Query.usersIn [1, 1]) ∧
    dbBulkOk.users.filter (fun u => ([1, 1] : List Int).contains u.id) =
      dbBulkOk.users.filter
        (fun u => ([1, 1] : List Int).dedup.contains u.id) :=
  ⟨(C7_keys_one_per_row dbBulkOk [lmA, lmB] [reA, reB]
      (List.cons_ne_nil _ _) (List.cons_ne_nil _ _)).2.1,
   (C7_keys_one_per_row dbBulkOk [lmA, lmB] [reA, reB]
      (List.cons_ne_nil _ _) (List.cons_ne_nil _ _)).2.2 [1, 1]⟩

/-- C8: evaluation at the failing input.  A single livestream with zero join
rows makes the collected tag-id list empty; `sqlx.In` rejects the empty key
slice, so the bulk aggregator returns an error instead of succeeding with an
empty tag list, while the single-entity path succeeds with `tags = []`. -/
theorem C8_zero_tags_error :
    dbTagless.livestreamTags = [] ∧
    (fillLivestreamResponseBulk dbTagless [lmA]).2 =
      .error "failed to build tag query: empty slice passed to in query" ∧
    fillLivestreamResponse dbTagless lmA =
      .ok (mkLivestream lmA ⟨1, "a"⟩ []) :=
  ⟨rfl, rfl, rfl⟩

/-- C10 counterexample: a reaction whose user and livestream references both
resolve can still make the bulk aggregation fail: the referenced livestream
carries no join rows, so the sub-aggregation rejects the empty tag-id key
list and no list is returned at all. -/
theorem C10_counterexample :
    reA.userId ∈ dbTagless.users.map (fun u => u.id) ∧
    reA.livestreamId ∈ dbTagless.livestreams.map (fun l => l.id) ∧
    (fillReactionResponseBulk dbTagless [reA]).2 =
      .error "failed to build tag query: empty slice passed to in query" :=
  ⟨by decide, by decide, rfl⟩

/-- C10 (amended): whenever `fillReactionResponseBulk` succeeds, the output
list has exactly the input's length and the i-th output reaction is built
from the i-th input row — same id, emoji name and creation time, its user
carrying the row's user id and its livestream carrying the row's livestream
id: the caller's input order is preserved exactly. -/
theorem C10_order_preserved (db : DBState) (rows : List ReactionModel)
    (out : List Reaction)
    (h : (fillReactionResponseBulk db rows).2 = .ok out) :
    out.length = rows.length ∧
    ∀ (i : Nat) (h1 : i < rows.length) (h2 : i < out.length),
      (out.get ⟨i, h2⟩).id = (rows.get ⟨i, h1⟩).id ∧
      (out.get ⟨i, h2⟩).emojiName = (rows.get ⟨i, h1⟩).emojiName ∧
      (out.get ⟨i, h2⟩).createdAt = (rows.get ⟨i, h1⟩).createdAt ∧
      (out.get ⟨i, h2⟩).user.id = (rows.get ⟨i, h1⟩).userId ∧
      (out.get ⟨i, h2⟩).livestream.id = (rows.get ⟨i, h1⟩).livestreamId := by
  unfold fillReactionResponseBulk at h
  by_cases hemp : rows.isEmpty = true
  · rw [if_pos hemp] at h
    have h3 : (Except.ok ([] : List Reaction) :
        Except String (List Reaction)) = .ok out := h
    cases h3
    have hrows : rows = [] := List.isEmpty_iff.mp hemp
    subst hrows
    exact ⟨rfl, fun i h1 => absurd h1 (by simp)⟩
  · rw [if_neg hemp] at h
    rcases hsub : fillLivestreamResponseBulk db (reacLsModels db rows)
      with ⟨subLog, subRes⟩
    rw [hsub] at h
    cases subRes with
    | error e => exact Except.noConfusion h
    | ok lsMap =>
      have h2 : assembleReactions (reacUserMap db rows) lsMap rows
          = .ok out := h
      refine assembleReactions_spec _ _ ?_ ?_ rows out h2
      · exact fun k u hk => reacUserMap_id db rows k u hk
      · intro k ls hk
        refine fillLivestreamResponseBulk_id db (reacLsModels db rows)
          lsMap ?_ k ls hk
        rw [hsub]

/-- C10 witness: a concrete successful bulk aggregation of one reaction. -/
theorem C10_witness :
    (fillReactionResponseBulk dbBulkOk [reA]).2 = .ok reacOutOk ∧
    reacOutOk.length = [reA].length :=
  ⟨rfl, (C10_order_preserved dbBulkOk [reA] reacOutOk rfl).1⟩

theorem find?_some_of_exists {α : Type} {p : α → Bool} {l : List α}
    (h : ∃ x ∈ l, p x = true) : ∃ x, l.find? p = some x := by
  cases hf : l.find? p with
  | some x => exact ⟨x, rfl⟩
  | none =>
    rw [List.find?_eq_none] at hf
    rcases h with ⟨x, hx, hpx⟩
    exact absurd hpx (hf x hx)

theorem mem_bulkUserIDs {rows : List LivestreamModel} {r : LivestreamModel}
    (hr : r ∈ rows) : r.userId ∈ bulkUserIDs rows :=
  List.mem_map_of_mem (fun r => r.userId) hr

theorem mem_bulkLivestreamIDs {rows : List LivestreamModel}
    {r : LivestreamModel} (hr : r ∈ rows) : r.id ∈ bulkLivestreamIDs rows :=
  List.mem_map_of_mem (fun r => r.id) hr

/-- C5 (amended): over well-formed storage — primary-key-unique users, tags
and input rows — when every input row's owner exists, every join row of an
input row references an existing tag, and at least one input row has a join
row (so the collected tag-id key list is nonempty), the bulk path agrees
with the single-entity path: the bulk aggregation succeeds and associates
with each input row's id exactly the livestream the single-entity fill
returns for that row — same owner, same tag list in the same order, same
scalar fields. -/
theorem C5_bulk_single_agree (db : DBState) (rows : List LivestreamModel)
    (hu : (db.users.map (fun u => u.id)).Nodup)
    (ht : (db.tags.map (fun t => t.id)).Nodup)
    (hri : (rows.map (fun r => r.id)).Nodup)
    (hown : ∀ r ∈ rows, ∃ u ∈ db.users, u.id = r.userId)
    (htag : ∀ lt ∈ db.livestreamTags,
      lt.livestreamId ∈ rows.map (fun r => r.id) →
      ∃ tm ∈ db.tags, tm.id = lt.tagId)
    (hne : ∃ lt ∈ db.livestreamTags,
      lt.livestreamId ∈ rows.map (fun r => r.id)) :
    ∃ m, (fillLivestreamResponseBulk db rows).2 = .ok m ∧
      ∀ r ∈ rows, ∃ ls, m r.id = some ls ∧
        fillLivestreamResponse db r = .ok ls := by
  have hrne : rows ≠ [] := by
    rcases hne with ⟨lt, _, hmem⟩
    intro hr
    rw [hr] at hmem
    simp at hmem
  have hemp : rows.isEmpty = false := isEmpty_false_of_ne_nil hrne
  have hltne : ∃ lt, lt ∈ bulkLtModels db rows := by
    rcases hne with ⟨lt, hlt, hmem⟩
    exact ⟨lt, List.mem_filter.mpr ⟨hlt, List.elem_iff.mpr hmem⟩⟩
  have htagne : (bulkTagIDs db rows).isEmpty = false := by
    rcases hltne with ⟨lt, hlt⟩
    have hmem : lt.tagId ∈ bulkTagIDs db rows :=
      List.mem_map_of_mem (fun t => t.tagId) hlt
    cases hbt : (bulkTagIDs db rows).isEmpty
    · rfl
    · rw [List.isEmpty_iff.mp hbt] at hmem
      simp at hmem
  have hOwnerNodup : ((bulkOwnerModels db rows).map (fun u => u.id)).Nodup := by
    unfold bulkOwnerModels
    exact List.Nodup.sublist
      ((List.filter_sublist db.users).map (fun u => u.id)) hu
  have hOwner : ∀ r ∈ rows, bulkOwnerMap db rows r.userId =
      (db.users.find? (fun u => u.id == r.userId)).map fillUserResponse := by
    intro r hr
    have himp : ∀ x : UserModel, (x.id == r.userId) = true →
        ((bulkUserIDs rows).contains x.id) = true := by
      intro x hx
      rw [beq_iff_eq] at hx
      rw [hx]
      exact List.elem_iff.mpr (mem_bulkUserIDs hr)
    unfold bulkOwnerMap
    rw [fillUserResponseBulk_lookup _ hOwnerNodup]
    unfold bulkOwnerModels
    rw [find?_filter_of_imp himp db.users]
  have hOwnSome : ∀ r ∈ rows,
      ∃ u0, db.users.find? (fun u => u.id == r.userId) = some u0 := by
    intro r hr
    apply find?_some_of_exists
    rcases hown r hr with ⟨u, hu2, hid⟩
    exact ⟨u, hu2, beq_iff_eq.mpr hid⟩
  have hGroup : ∀ r ∈ rows, (bulkLtMap db rows r.id).getD [] =
      db.livestreamTags.filter (fun t => t.livestreamId == r.id) := by
    intro r hr
    have himp : ∀ x ∈ db.livestreamTags, (x.livestreamId == r.id) = true →
        ((bulkLivestreamIDs rows).contains x.livestreamId) = true := by
      intro x _ hx
      rw [beq_iff_eq] at hx
      rw [hx]
      exact List.elem_iff.mpr (mem_bulkLivestreamIDs hr)
    unfold bulkLtMap
    rw [groupTagsByLivestream_getD]
    unfold bulkLtModels
    exact filter_filter_of_imp db.livestreamTags himp
  have hTagNodup : ((bulkTagModels db rows).map (fun t => t.id)).Nodup := by
    unfold bulkTagModels
    exact List.Nodup.sublist
      ((List.filter_sublist db.tags).map (fun t => t.id)) ht
  have hTagMap : ∀ lt ∈ db.livestreamTags,
      lt.livestreamId ∈ rows.map (fun r => r.id) →
      bulkTagMap db rows lt.tagId =
        (getTagById db.tags lt.tagId).map (fun tm => Tag.mk tm.id tm.name) := by
    intro lt hlt hmem
    have hltm : lt ∈ bulkLtModels db rows :=
      List.mem_filter.mpr ⟨hlt, List.elem_iff.mpr hmem⟩
    have himp : ∀ x : TagModel, (x.id == lt.tagId) = true →
        ((bulkTagIDs db rows).contains x.id) = true := by
      intro x hx
      rw [beq_iff_eq] at hx
      rw [hx]
      exact List.elem_iff.mpr (List.mem_map_of_mem (fun t => t.tagId) hltm)
    unfold bulkTagMap
    rw [buildTagMap_lookup _ hTagNodup]
    unfold bulkTagModels
    rw [find?_filter_of_imp himp db.tags]
    rfl
  have hTagSome : ∀ r ∈ rows, ∀ lt ∈ db.livestreamTags.filter
      (fun t => t.livestreamId == r.id),
      (getTagById db.tags lt.tagId).isSome = true := by
    intro r hr lt hlt
    have h2 := List.mem_filter.mp hlt
    have h3 : lt.livestreamId ∈ rows.map (fun r => r.id) := by
      rw [beq_iff_eq.mp h2.2]
      exact List.mem_map_of_mem (fun r => r.id) hr
    rcases htag lt h2.1 h3 with ⟨tm, htm, htmid⟩
    have hex : ∃ x ∈ db.tags, (fun t : TagModel => t.id == lt.tagId) x = true :=
      ⟨tm, htm, beq_iff_eq.mpr htmid⟩
    rcases find?_some_of_exists hex with ⟨t0, ht0⟩
    unfold getTagById
    rw [ht0]
    rfl
  have hLook : ∀ r ∈ rows,
      lookupTags (bulkTagMap db rows) ((bulkLtMap db rows r.id).getD []) =
        fillTags db.tags
          (db.livestreamTags.filter (fun t => t.livestreamId == r.id)) := by
    intro r hr
    rw [hGroup r hr]
    apply lookupTags_eq_fillTags
    · intro lt hlt
      have h2 := List.mem_filter.mp hlt
      apply hTagMap lt h2.1
      rw [beq_iff_eq.mp h2.2]
      exact List.mem_map_of_mem (fun r => r.id) hr
    · exact hTagSome r hr
  have hAll : ∀ r ∈ rows, ((bulkOwnerMap db rows) r.userId).isSome = true ∧
      (lookupTags (bulkTagMap db rows)
        ((bulkLtMap db rows r.id).getD [])).isOk = true := by
    intro r hr
    constructor
    · rw [hOwner r hr]
      rcases hOwnSome r hr with ⟨u0, hu0⟩
      rw [hu0]
      rfl
    · rw [hLook r hr]
      rcases fillTags_ok db.tags _ (hTagSome r hr) with ⟨ts, hts⟩
      rw [hts]
      rfl
  obtain ⟨m, hm⟩ := assembleLivestreams_ok_of (bulkOwnerMap db rows)
    (bulkLtMap db rows) (bulkTagMap db rows) rows emptyMap hAll
  have hres : (fillLivestreamResponseBulk db rows).2 =
      assembleLivestreams (bulkOwnerMap db rows) (bulkLtMap db rows)
        (bulkTagMap db rows) emptyMap rows := by
    unfold fillLivestreamResponseBulk
    rw [hemp, htagne]
    simp only [Bool.false_eq_true, if_false]
  refine ⟨m, by rw [hres]; exact hm, ?_⟩
  intro r hr
  obtain ⟨owner, tags, ho, hl, hmr⟩ := assembleLivestreams_ok_mem
    (bulkOwnerMap db rows) (bulkLtMap db rows) (bulkTagMap db rows)
    rows emptyMap m hm hri r hr
  refine ⟨mkLivestream r owner tags, hmr, ?_⟩
  unfold fillLivestreamResponse
  rcases hOwnSome r hr with ⟨u0, hu0⟩
  rw [hu0]
  have howner : owner = fillUserResponse u0 := by
    have h4 := hOwner r hr
    rw [ho, hu0] at h4
    exact Option.some.inj h4
  have htagsEq : fillTags db.tags
      (db.livestreamTags.filter (fun t => t.livestreamId == r.id)) =
        .ok tags := by
    rw [← hLook r hr]
    exact hl
  rw [htagsEq, howner]

/-- C5 counterexample: with one input row whose owner exists and which has
zero join rows (so every referenced tag exists vacuously), the
single-entity path succeeds with an empty tag list while the bulk path
fails to build the tags IN query — the two paths do not agree on this
input. -/
theorem C5_counterexample :
    (∀ r ∈ [lmA], ∃ u ∈ dbTagless.users, u.id = r.userId) ∧
    dbTagless.livestreamTags = [] ∧
    fillLivestreamResponse dbTagless lmA =
      .ok (mkLivestream lmA ⟨1, "a"⟩ []) ∧
    (fillLivestreamResponseBulk dbTagless [lmA]).2 =
      .error "failed to build tag query: empty slice passed to in query" :=
  ⟨by decide, rfl, rfl, rfl⟩

/-- C5 witness: the hypotheses hold at the concrete storage `dbBulkOk` with
input `[lmA]`, and the two paths agree there. -/
theorem C5_witness :
    ((dbBulkOk.users.map (fun u => u.id)).Nodup ∧
     (dbBulkOk.tags.map (fun t => t.id)).Nodup ∧
     ([lmA].map (fun r => r.id)).Nodup ∧
     ∃ lt ∈ dbBulkOk.livestreamTags,
       lt.livestreamId ∈ [lmA].map (fun r => r.id)) ∧
    ∃ m, (fillLivestreamResponseBulk dbBulkOk [lmA]).2 = .ok m ∧
      ∀ r ∈ [lmA], ∃ ls, m r.id = some ls ∧
        fillLivestreamResponse dbBulkOk r = .ok ls :=
  ⟨⟨by decide, by decide, by decide, by decide⟩,
   C5_bulk_single_agree dbBulkOk [lmA] (by decide) (by decide) (by decide)
     (by decide) (by decide) (by decide)⟩
